import Mathlib

/-!
Verification of `src/mazegen.py` (A_maze_ing).

The file shallowly embeds the `MazeGenerator` orchestrator class and its
coordinate-to-direction encoder. Python raising is modelled with
`Except String`; Python `None` with `Option`; Python `set` with `Finset`.
The collaborators imported from `maze_files` (`Maze`, `dfs_maze_generator`,
`bfs_shortest_path_solver`, `multiple_path_maze`, `forty_two_marking`) are
not part of the sources; the `Maze` record is modelled from the spec and the
algorithmic collaborators are taken as explicit function parameters, since
none of the verified properties depend on their behaviour.
-/

/-- A cell coordinate: an `(x, y)` pair of Python integers. -/
abbrev Coord := Int × Int

/-- Modelled from the spec: `maze_files/maze_definitions.py` (class `Maze`)
is not among the sources. Per the spec's data model, a maze holds its
dimensions, entry and exit coordinates, and a height by width table of
4-bit wall masks. -/
structure Maze where
  height : Int
  width : Int
  entry : Coord
  exit : Coord
  grid : List (List Nat)

/-- Modelled from the spec: a fresh maze starts with every cell's mask at 15
(all four walls closed), matching the source comment in `generate`. -/
def Maze.fresh (height width : Int) (entry ex : Coord) : Maze :=
  ⟨height, width, entry, ex,
    List.replicate height.toNat (List.replicate width.toNat 15)⟩

/-- `ConfigGen` dataclass from `src/mazegen.py`. -/
structure ConfigGen where
  width : Int
  height : Int
  entry : Coord
  exit : Coord
  seed : Int := 0
  perfect : Bool := true
  marking_42 : Bool := true

/-- The mutable attributes of a `MazeGenerator` instance
(`cfg`, `_maze`, `_path`, `_forbidden`). -/
structure MazeGenerator where
  cfg : ConfigGen
  _maze : Option Maze
  _path : Option (List Coord)
  _forbidden : Finset Coord

/-- `MazeGenerator.__init__`: bind a configuration, no maze, no path,
empty forbidden set. -/
def MazeGenerator.init (cfg : ConfigGen) : MazeGenerator :=
  ⟨cfg, none, none, ∅⟩

/-- The message of the `RuntimeError` raised by the `maze` property. The two
adjacent string literals in the source concatenate without a space. -/
def mazeNotGeneratedMsg : String :=
  "Maze not generated yer. Please call generate() functionfirst."

/-- The message of the `RuntimeError` raised by the `path` property. -/
def pathNotSolvedMsg : String := "Maze path is not solved yet."

/-- The message of the `RuntimeError` raised by `generate` when
`perfect=False` but `multiple_path_maze` could not be imported. -/
def missingBraiderMsg : String :=
  "Config Perfect=False but multiple_path_maze() was not found. Expected maze_files/multiple_path_maze.py to define multiple_path maze."

/-- The message of the `ValueError` raised by `coords_to_directions` on a
non-adjacent step (the source interpolates the offending pair; the model
keeps a fixed prefix of the message). -/
def nonAdjacentMsg : String := "Non-adjacent step in path for coordinates"

/-- The message of the `TypeError` Python raises when `len()` is applied to
`None` (as `coords_to_directions` does after binding `coords_list` to the
value of the `path` property). -/
def lenOfNoneMsg : String := "object of type NoneType has no len()"

/-- The `maze` property: raises `RuntimeError` while `_maze is None`,
otherwise returns the stored maze. -/
def MazeGenerator.maze (s : MazeGenerator) : Except String Maze :=
  match s._maze with
  | none => Except.error mazeNotGeneratedMsg
  | some m => Except.ok m

/-- The `grid` property: shortcut for `self.maze.grid` (propagates the
`maze` property's error). -/
def MazeGenerator.grid (s : MazeGenerator) : Except String (List (List Nat)) :=
  (s.maze).map Maze.grid

/-- The `forbidden_cells` property: `return set(self._forbidden)` — always
returns a copy of the internal set, raising nothing. Copying is the
identity on immutable `Finset` values; the aliasing content of the copy is
modelled separately with `SetStore`. -/
def MazeGenerator.forbidden_cells (s : MazeGenerator) : Finset Coord :=
  s._forbidden

/-- The `path` property. The source raises `RuntimeError` while
`_path is None`; in the other branch the function body ends without a
`return` statement, so Python returns `None`. The result type
`Option (List Coord)` models the dynamically typed return value:
`Except.ok none` is Python's implicit `None`. -/
def MazeGenerator.path (s : MazeGenerator) : Except String (Option (List Coord)) :=
  match s._path with
  | none => Except.error pathNotSolvedMsg
  | some _ => Except.ok none

/-- The `generate` property. The collaborators `dfs_maze_generator`
(in-place carver), `forty_two_marking` (optional import, `none` when the
module is absent) and `multiple_path_maze` (optional import) are passed as
parameters since their modules are not among the sources. The result pairs
the returned maze (or the raised error) with the post-call attribute state;
note the source mutates `self` before the `perfect` check, so the state is
updated even on the error path. -/
def MazeGenerator.generate
    (dfs_maze_generator : Maze → Finset Coord → Int → Maze)
    (forty_two_marking : Option (Maze → Finset Coord))
    (multiple_path_maze : Option (Maze → Maze))
    (s : MazeGenerator) : Except String Maze × MazeGenerator :=
  let cfg := s.cfg
  let m0 := Maze.fresh cfg.height cfg.width cfg.entry cfg.exit
  let forb : Finset Coord :=
    match cfg.marking_42, forty_two_marking with
    | true, some f => f m0
    | _, _ => ∅
  let m1 := dfs_maze_generator m0 forb cfg.seed
  if cfg.perfect then
    (Except.ok m1, ⟨cfg, some m1, none, forb⟩)
  else
    match multiple_path_maze with
    | none => (Except.error missingBraiderMsg, ⟨cfg, some m1, none, forb⟩)
    | some f =>
      let m2 := f m1
      (Except.ok m2, ⟨cfg, some m2, none, forb⟩)

/-- `solve_maze_path`: reads the `maze` property (raising its error when no
maze is stored), stores the BFS result in `_path` and returns a copy of it.
The solver `bfs_shortest_path_solver` is a parameter, its module not being
among the sources. -/
def MazeGenerator.solve_maze_path
    (bfs_shortest_path_solver : Maze → List Coord)
    (s : MazeGenerator) : Except String (List Coord) × MazeGenerator :=
  match s._maze with
  | none => (Except.error mazeNotGeneratedMsg, s)
  | some m =>
    let p := bfs_shortest_path_solver m
    (Except.ok p, ⟨s.cfg, s._maze, some p, s._forbidden⟩)

/-- One step of the encoder: the letter for the unit displacement from `p`
to `q`, or `none` where the source raises `ValueError`. -/
def dirOfStep (p q : Coord) : Option Char :=
  let dx := q.1 - p.1
  let dy := q.2 - p.2
  if dx = 0 ∧ dy = -1 then some 'N'
  else if dx = 1 ∧ dy = 0 then some 'E'
  else if dx = 0 ∧ dy = 1 then some 'S'
  else if dx = -1 ∧ dy = 0 then some 'W'
  else none

/-- The pairwise loop of `coords_to_directions`: walk `(p0,p1), (p1,p2), …`
collecting letters, failing on the first non-adjacent step. -/
def encodeSteps : List Coord → Except String (List Char)
  | p :: q :: rest =>
    match dirOfStep p q with
    | some c => (encodeSteps (q :: rest)).map (fun cs => c :: cs)
    | none => Except.error nonAdjacentMsg
  | _ => Except.ok []

/-- The body of `coords_to_directions` once `coords_list` is bound: fewer
than two points yield `""`, otherwise the joined letters of the pairwise
walk. -/
def coords_to_directions_list (coords : List Coord) : Except String String :=
  if coords.length < 2 then Except.ok ""
  else (encodeSteps coords).map String.mk

/-- The `coords_to_directions` method. With an explicit sequence it encodes
that sequence; with `coords=None` it binds `coords_list` to the value of the
`path` property — which either raises, or (because of the property's missing
`return`) evaluates to Python `None`, making the subsequent
`len(coords_list)` raise `TypeError`. -/
def MazeGenerator.coords_to_directions
    (s : MazeGenerator) (coords : Option (List Coord)) : Except String String :=
  match coords with
  | some cs => coords_to_directions_list cs
  | none =>
    match s.path with
    | Except.error e => Except.error e
    | Except.ok none => Except.error lenOfNoneMsg
    | Except.ok (some cs) => coords_to_directions_list cs

/-- The move a letter denotes, for replaying an encoded string
(north = y-1, east = x+1, south = y+1, west = x-1). -/
def applyDir (p : Coord) (c : Char) : Coord :=
  if c = 'N' then (p.1, p.2 - 1)
  else if c = 'E' then (p.1 + 1, p.2)
  else if c = 'S' then (p.1, p.2 + 1)
  else if c = 'W' then (p.1 - 1, p.2)
  else p

/-- Replay a letter string as unit moves from a start coordinate, listing
every visited coordinate (the start included). -/
def replay (p : Coord) : List Char → List Coord
  | [] => [p]
  | c :: cs => p :: replay (applyDir p c) cs

/-- Two coordinates differ by exactly one compass unit step. -/
abbrev UnitStep (p q : Coord) : Prop := (dirOfStep p q).isSome = true

/-- A store of Python `set` objects, indexed by reference. Models the heap
as far as the `forbidden_cells` accessor's copy semantics are concerned:
`set(self._forbidden)` allocates a fresh object holding the same elements. -/
abbrev SetStore := List (Finset Coord)

/-- Dereference: the contents of the set object at reference `r`. -/
def SetStore.read (h : SetStore) (r : Nat) : Finset Coord :=
  h.getD r ∅

/-- Allocate a new set object, returning its (fresh) reference. -/
def SetStore.alloc (h : SetStore) (v : Finset Coord) : Nat × SetStore :=
  (h.length, h ++ [v])

/-- In-place mutation of the set object at reference `r`. -/
def SetStore.write (h : SetStore) (r : Nat) (v : Finset Coord) : SetStore :=
  h.set r v

/-- The `forbidden_cells` property at the heap level: `set(self._forbidden)`
reads the internal set object and allocates a fresh copy of it, which is
what the caller receives. -/
def forbidden_cells_ref (h : SetStore) (forbiddenRef : Nat) : Nat × SetStore :=
  SetStore.alloc h (SetStore.read h forbiddenRef)

lemma SetStore.read_alloc_old (h : SetStore) (v : Finset Coord) (r : Nat)
    (hr : r < h.length) : SetStore.read (h ++ [v]) r = SetStore.read h r := by
  simp [SetStore.read, List.getD_eq_getElem?_getD, List.getElem?_append, hr]

lemma SetStore.read_alloc_new (h : SetStore) (v : Finset Coord) :
    SetStore.read (h ++ [v]) h.length = v := by
  unfold SetStore.read
  rw [List.getD_eq_getElem?_getD, List.getElem?_append_right (le_refl _)]
  simp

lemma SetStore.read_write_ne (h : SetStore) (r r' : Nat) (v : Finset Coord)
    (hne : r ≠ r') : SetStore.read (SetStore.write h r v) r' = SetStore.read h r' := by
  unfold SetStore.read SetStore.write
  rw [List.getD_eq_getElem?_getD, List.getD_eq_getElem?_getD,
    List.getElem?_set_ne hne]

lemma applyDir_of_dirOfStep (p q : Coord) (c : Char)
    (h : dirOfStep p q = some c) : applyDir p c = q := by
  obtain ⟨px, py⟩ := p
  obtain ⟨qx, qy⟩ := q
  unfold dirOfStep at h
  simp only at h
  split_ifs at h with h1 h2 h3 h4 <;>
    simp only [Option.some.injEq] at h <;>
    subst h <;>
    simp_all [applyDir, Prod.mk.injEq] <;>
    omega

lemma encodeSteps_replay (rest : List Coord) (p : Coord)
    (h : List.Chain' UnitStep (p :: rest)) :
    ∃ cs, encodeSteps (p :: rest) = Except.ok cs ∧ replay p cs = p :: rest := by
  induction rest generalizing p with
  | nil => exact ⟨[], rfl, rfl⟩
  | cons q rest ih =>
    rw [List.chain'_cons] at h
    obtain ⟨hpq, hq⟩ := h
    obtain ⟨c, hc⟩ := Option.isSome_iff_exists.mp hpq
    obtain ⟨cs, henc, hrep⟩ := ih q hq
    refine ⟨c :: cs, ?_, ?_⟩
    · simp only [encodeSteps, hc, henc, Except.map]
    · simp only [replay, applyDir_of_dirOfStep p q c hc, hrep]

lemma encodeSteps_error_iff (coords : List Coord) :
    (∃ e, encodeSteps coords = Except.error e) ↔ ¬ List.Chain' UnitStep coords := by
  induction coords with
  | nil => simp [encodeSteps]
  | cons p rest ih =>
    cases rest with
    | nil => simp [encodeSteps]
    | cons q rest' =>
      rw [List.chain'_cons]
      cases hc : dirOfStep p q with
      | none =>
        constructor
        · intro _ hcon
          have := hcon.1
          unfold UnitStep at this
          rw [hc] at this
          simp at this
        · intro _
          exact ⟨nonAdjacentMsg, by simp [encodeSteps, hc]⟩
      | some c =>
        have hstep : UnitStep p q := by unfold UnitStep; rw [hc]; rfl
        constructor
        · intro hex hcon
          obtain ⟨e, he⟩ := hex
          simp only [encodeSteps, hc] at he
          cases hrec : encodeSteps (q :: rest') with
          | ok cs => rw [hrec] at he; simp [Except.map] at he
          | error e' =>
            exact (ih.mp ⟨e', hrec⟩) hcon.2
        · intro hcon
          have : ¬ List.Chain' UnitStep (q :: rest') := by
            intro hch
            exact hcon ⟨hstep, hch⟩
          obtain ⟨e, he⟩ := ih.mpr this
          exact ⟨e, by simp [encodeSteps, hc, he, Except.map]⟩

/-- A sample configuration (the spec's example scenario). -/
def cfgEx : ConfigGen := ⟨5, 5, (0, 0), (4, 4), 1, true, false⟩

/-- A sample configuration asking for an imperfect maze. -/
def cfgImp : ConfigGen := ⟨5, 5, (0, 0), (4, 4), 1, false, false⟩

/-- A sample configuration asking for the 42-marking. -/
def cfg42 : ConfigGen := ⟨5, 5, (0, 0), (4, 4), 0, true, true⟩

/-- A sample maze value. -/
def mazeEx : Maze := Maze.fresh 5 5 (0, 0) (4, 4)

/-- A sample generator state in the Generated stage. -/
def genReadyEx : MazeGenerator := ⟨cfgEx, some mazeEx, none, ∅⟩

/-- A sample solver collaborator. -/
def bfsEx : Maze → List Coord := fun _ => [(0, 0), (0, 1)]

/-- A sample carver collaborator. -/
def dfsEx : Maze → Finset Coord → Int → Maze := fun m _ _ => m

/-- C1: the claim states that after a successful `solve_maze_path()` the
`path` accessor returns the stored solved path, never `None`. The code
violates this: the property's solved branch has no `return` statement, so
Python returns `None`. This theorem evaluates the embedded code: after any
successful solve, reading `path` yields Python `None` (`Except.ok none`),
not the stored coordinate list. -/
theorem path_returns_none_after_solve
    (bfs : Maze → List Coord) (s s' : MazeGenerator) (p : List Coord)
    (h : s.solve_maze_path bfs = (Except.ok p, s')) :
    s'.path = Except.ok none := by
  unfold MazeGenerator.solve_maze_path at h
  cases hm : s._maze with
  | none => rw [hm] at h; simp at h
  | some m =>
    rw [hm] at h
    simp only [Prod.mk.injEq] at h
    obtain ⟨-, h2⟩ := h
    subst h2
    rfl

/-- Witness for C1 at a concrete solved generator. -/
theorem path_returns_none_after_solve_witness :
    MazeGenerator.path
        ⟨cfgEx, some mazeEx, some [((0 : Int), (0 : Int)), ((0 : Int), (1 : Int))], ∅⟩
      = Except.ok none :=
  path_returns_none_after_solve bfsEx genReadyEx
    ⟨cfgEx, some mazeEx, some [((0 : Int), (0 : Int)), ((0 : Int), (1 : Int))], ∅⟩
    [((0 : Int), (0 : Int)), ((0 : Int), (1 : Int))] rfl

/-- C2: the claim states that after generating and solving,
`coords_to_directions()` with no sequence returns the direction string of
the most recently solved path. The code violates this: `coords_list` is
bound to the value of the `path` property, which is `None` (C1), and
`len(None)` raises `TypeError`. -/
theorem coords_to_directions_default_after_solve
    (bfs : Maze → List Coord) (s s' : MazeGenerator) (p : List Coord)
    (h : s.solve_maze_path bfs = (Except.ok p, s')) :
    s'.coords_to_directions none = Except.error lenOfNoneMsg := by
  unfold MazeGenerator.solve_maze_path at h
  cases hm : s._maze with
  | none => rw [hm] at h; simp at h
  | some m =>
    rw [hm] at h
    simp only [Prod.mk.injEq] at h
    obtain ⟨-, h2⟩ := h
    subst h2
    rfl

/-- Witness for C2 at a concrete solved generator. -/
theorem coords_to_directions_default_after_solve_witness :
    MazeGenerator.coords_to_directions
        ⟨cfgEx, some mazeEx, some [((0 : Int), (0 : Int)), ((0 : Int), (1 : Int))], ∅⟩
        none
      = Except.error lenOfNoneMsg :=
  coords_to_directions_default_after_solve bfsEx genReadyEx
    ⟨cfgEx, some mazeEx, some [((0 : Int), (0 : Int)), ((0 : Int), (1 : Int))], ∅⟩
    [((0 : Int), (0 : Int)), ((0 : Int), (1 : Int))] rfl

/-- C3 counterexample: the claim states that reading the forbidden-cell set
before `generate()` has run fails. It does not: on a freshly constructed
generator, `forbidden_cells` returns the empty set without raising. -/
theorem forbidden_cells_before_generate_returns_empty :
    (MazeGenerator.init ⟨5, 5, (0, 0), (4, 4), 1, true, true⟩).forbidden_cells = ∅ :=
  rfl

/-- C3 amended: before `generate()` has run, the `maze` and `path`
accessors raise; the `forbidden_cells` accessor never raises and returns
the (empty) internal set as a copy. -/
theorem accessors_before_generate (c : ConfigGen) :
    (MazeGenerator.init c).maze = Except.error mazeNotGeneratedMsg ∧
      (MazeGenerator.init c).path = Except.error pathNotSolvedMsg ∧
      (MazeGenerator.init c).forbidden_cells = ∅ :=
  ⟨rfl, rfl, rfl⟩

/-- C4: with `perfect=False` and the braiding routine `multiple_path_maze`
unavailable (import bound to `None`), `generate` raises the missing-feature
`RuntimeError` rather than returning an unbraided maze. -/
theorem generate_missing_braider_fails
    (dfs : Maze → Finset Coord → Int → Maze)
    (ftm : Option (Maze → Finset Coord))
    (s : MazeGenerator) (h : s.cfg.perfect = false) :
    (s.generate dfs ftm none).1 = Except.error missingBraiderMsg := by
  simp [MazeGenerator.generate, h]

/-- Witness for C4 at a concrete imperfect configuration. -/
theorem generate_missing_braider_fails_witness :
    ((MazeGenerator.init cfgImp).generate dfsEx none none).1
      = Except.error missingBraiderMsg :=
  generate_missing_braider_fails dfsEx none (MazeGenerator.init cfgImp) rfl

/-- C5: for every nonempty coordinate sequence whose consecutive pairs are
compass unit steps, `coords_to_directions` succeeds and replaying its
letters as unit moves from the first coordinate reproduces the sequence
exactly (hence ends at its last coordinate). -/
theorem coords_to_directions_roundtrip
    (s : MazeGenerator) (p : Coord) (rest : List Coord)
    (h : List.Chain' UnitStep (p :: rest)) :
    (s.coords_to_directions (some (p :: rest))).map
        (fun str => replay p str.toList)
      = Except.ok (p :: rest) := by
  obtain ⟨cs, henc, hrep⟩ := encodeSteps_replay rest p h
  show (coords_to_directions_list (p :: rest)).map _ = _
  unfold coords_to_directions_list
  by_cases hlen : (p :: rest).length < 2
  · have hnil : rest = [] := by
      cases rest with
      | nil => rfl
      | cons a b => exfalso; simp at hlen; omega
    subst hnil
    rw [if_pos hlen]
    simp [Except.map, replay, String.toList]
  · rw [if_neg hlen, henc]
    simp only [Except.map]
    have : (String.mk cs).toList = cs := rfl
    rw [this, hrep]

/-- Witness for C5 on the concrete unit-step path (0,0) → (1,0) → (1,1). -/
theorem coords_to_directions_roundtrip_witness :
    ((MazeGenerator.init cfgEx).coords_to_directions
          (some [((0 : Int), (0 : Int)), ((1 : Int), (0 : Int)), ((1 : Int), (1 : Int))])).map
        (fun str => replay ((0 : Int), (0 : Int)) str.toList)
      = Except.ok [((0 : Int), (0 : Int)), ((1 : Int), (0 : Int)), ((1 : Int), (1 : Int))] :=
  coords_to_directions_roundtrip (MazeGenerator.init cfgEx) ((0 : Int), (0 : Int))
    [((1 : Int), (0 : Int)), ((1 : Int), (1 : Int))]
    (by
      rw [List.chain'_cons]
      refine ⟨rfl, ?_⟩
      rw [List.chain'_cons]
      exact ⟨rfl, List.chain'_singleton _⟩)

/-- C6: an explicitly supplied sequence makes `coords_to_directions` raise
the encoding error exactly when some consecutive pair is not one of the
four compass unit displacements; in particular [(0,0), (2,0)] fails with
the non-adjacent-step error. -/
theorem coords_to_directions_error_iff_nonadjacent :
    (∀ (s : MazeGenerator) (coords : List Coord),
        (∃ e, s.coords_to_directions (some coords) = Except.error e) ↔
          ¬ List.Chain' UnitStep coords) ∧
      (MazeGenerator.init cfgEx).coords_to_directions
          (some [((0 : Int), (0 : Int)), ((2 : Int), (0 : Int))])
        = Except.error nonAdjacentMsg := by
  constructor
  · intro s coords
    show (∃ e, coords_to_directions_list coords = Except.error e) ↔ _
    unfold coords_to_directions_list
    by_cases hlen : coords.length < 2
    · rw [if_pos hlen]
      constructor
      · rintro ⟨e, he⟩
        simp at he
      · intro hn
        exfalso
        apply hn
        cases coords with
        | nil => exact List.chain'_nil
        | cons a b =>
          cases b with
          | nil => exact List.chain'_singleton a
          | cons c d => exfalso; simp at hlen; omega
    · rw [if_neg hlen, ← encodeSteps_error_iff]
      cases hrec : encodeSteps coords with
      | ok cs => simp [hrec, Except.map]
      | error e => simp [hrec, Except.map]
  · rfl

/-- C7: an explicitly supplied sequence of fewer than two coordinates makes
`coords_to_directions` return the empty string rather than raise. -/
theorem coords_to_directions_short_empty
    (s : MazeGenerator) (coords : List Coord) (h : coords.length < 2) :
    s.coords_to_directions (some coords) = Except.ok "" := by
  show coords_to_directions_list coords = _
  unfold coords_to_directions_list
  rw [if_pos h]

/-- Witness for C7 at the empty sequence. -/
theorem coords_to_directions_short_empty_witness :
    (MazeGenerator.init cfgEx).coords_to_directions (some []) = Except.ok "" :=
  coords_to_directions_short_empty (MazeGenerator.init cfgEx) [] (by decide)

/-- C8: every `generate` invocation resets the stored path: the post-call
state has `_path = None` on every control path (perfect, braided, and the
missing-braider error path alike), so reading `path` or calling
`coords_to_directions` with no sequence raises the not-solved error until a
fresh `solve_maze_path`. -/
theorem generate_resets_path_state
    (dfs : Maze → Finset Coord → Int → Maze)
    (ftm : Option (Maze → Finset Coord))
    (mpm : Option (Maze → Maze)) (s : MazeGenerator) :
    (s.generate dfs ftm mpm).2._path = none ∧
      (s.generate dfs ftm mpm).2.path = Except.error pathNotSolvedMsg ∧
      (s.generate dfs ftm mpm).2.coords_to_directions none
        = Except.error pathNotSolvedMsg := by
  cases mpm with
  | none =>
    by_cases hp : s.cfg.perfect = true <;>
      simp [MazeGenerator.generate, hp, MazeGenerator.path,
        MazeGenerator.coords_to_directions]
  | some f =>
    by_cases hp : s.cfg.perfect = true <;>
      simp [MazeGenerator.generate, hp, MazeGenerator.path,
        MazeGenerator.coords_to_directions]

/-- C9: when the `forty_two_marking` import is unavailable (bound to
`None`) but `marking_42=True`, `generate` raises nothing on its account: on
a perfect-maze configuration it completes, returning the carved maze, and
the stored forbidden set is empty. -/
theorem generate_without_marking_module
    (dfs : Maze → Finset Coord → Int → Maze)
    (mpm : Option (Maze → Maze)) (s : MazeGenerator)
    (h42 : s.cfg.marking_42 = true) (hp : s.cfg.perfect = true) :
    (s.generate dfs none mpm).2._forbidden = ∅ ∧
      (s.generate dfs none mpm).1 =
        Except.ok (dfs (Maze.fresh s.cfg.height s.cfg.width s.cfg.entry s.cfg.exit)
          ∅ s.cfg.seed) := by
  simp [MazeGenerator.generate, h42, hp]

/-- Witness for C9 at a concrete marking-enabled configuration. -/
theorem generate_without_marking_module_witness :
    ((MazeGenerator.init cfg42).generate dfsEx none none).2._forbidden = ∅ ∧
      ((MazeGenerator.init cfg42).generate dfsEx none none).1 =
        Except.ok (dfsEx (Maze.fresh 5 5 ((0 : Int), (0 : Int)) ((4 : Int), (4 : Int))) ∅ 0) :=
  generate_without_marking_module dfsEx none (MazeGenerator.init cfg42) rfl rfl

/-- C10: `forbidden_cells` returns a fresh copy. At the heap level,
`set(self._forbidden)` allocates a new set object: its reference differs
from the internal one, the read leaves the internal object unchanged, the
copy holds the same elements, and mutating the returned object leaves the
internal forbidden set unchanged. -/
theorem forbidden_cells_copy_semantics
    (h : SetStore) (r : Nat) (v : Finset Coord) (hr : r < h.length) :
    (forbidden_cells_ref h r).1 ≠ r ∧
      SetStore.read (forbidden_cells_ref h r).2 r = SetStore.read h r ∧
      SetStore.read (forbidden_cells_ref h r).2 (forbidden_cells_ref h r).1
        = SetStore.read h r ∧
      SetStore.read
          (SetStore.write (forbidden_cells_ref h r).2 (forbidden_cells_ref h r).1 v) r
        = SetStore.read h r := by
  have h1 : (forbidden_cells_ref h r).1 = h.length := rfl
  refine ⟨?_, ?_, ?_, ?_⟩
  · rw [h1]
    exact (Nat.ne_of_lt hr).symm
  · exact SetStore.read_alloc_old h _ r hr
  · rw [h1]
    exact SetStore.read_alloc_new h _
  · rw [h1]
    rw [SetStore.read_write_ne _ _ _ _ ((Nat.ne_of_lt hr).symm)]
    exact SetStore.read_alloc_old h _ r hr

/-- A sample one-object heap holding the internal forbidden set. -/
def storeEx : SetStore := [{((1 : Int), (1 : Int))}]

/-- A sample mutation payload for the returned copy. -/
def vEx : Finset Coord := {((2 : Int), (2 : Int))}

/-- Witness for C10 on a concrete one-object heap. -/
theorem forbidden_cells_copy_semantics_witness :
    (forbidden_cells_ref storeEx 0).1 ≠ 0 ∧
      SetStore.read (forbidden_cells_ref storeEx 0).2 0 = SetStore.read storeEx 0 ∧
      SetStore.read (forbidden_cells_ref storeEx 0).2 (forbidden_cells_ref storeEx 0).1
        = SetStore.read storeEx 0 ∧
      SetStore.read
          (SetStore.write (forbidden_cells_ref storeEx 0).2
            (forbidden_cells_ref storeEx 0).1 vEx) 0
        = SetStore.read storeEx 0 :=
  forbidden_cells_copy_semantics storeEx 0 vEx (by decide)
